import Mathlib

/-!
Verification development for the orga core: a shallow embedding of the ABCI
request dispatcher (`src/abci/mod.rs`), the SDK-compat transaction envelope
codec (`src/plugins/sdk_compat.rs`), the `Accounts` module
(`src/coins/accounts.rs`) and the tendermint HTTP client
(`src/tendermint/client.rs`), together with theorems settling the listed
behavioural claims.

Bytes are modelled as `List Nat` (each element a byte value), machine
integers as `Nat`/`Int` with explicit wrapping where the source casts, and
fallible Rust functions as `Except`-valued Lean functions.
-/

/-- Byte strings (Rust `Vec<u8>` / `&[u8]`). -/
abbrev Bytes := List Nat

/-- Errors of the crate (Rust `crate::Error`); each constructor carries the
formatted message of the corresponding variant. -/
inductive OrgaError where
  | ABCI (msg : String)
  | App (msg : String)
  | Coins (msg : String)
  | SignerErr (msg : String)
  | CallErr (msg : String)
  | ClientErr (msg : String)
  | QueryErr (msg : String)
  | Tendermint (msg : String)
deriving DecidableEq, Repr

/-- Modelled from the spec: the Display impl of `crate::Error` is not under
`src/`; an error's user-visible text is modelled as the message string the
source formats into the variant. -/
def OrgaError.text : OrgaError → String
  | .ABCI s => s
  | .App s => s
  | .Coins s => s
  | .SignerErr s => s
  | .CallErr s => s
  | .ClientErr s => s
  | .QueryErr s => s
  | .Tendermint s => s

/-! ## SDK-compat envelope codec (src/plugins/sdk_compat.rs) -/

/-- Maximum envelope size (src/plugins/sdk_compat.rs line 12). -/
def MAX_CALL_SIZE : Nat := 65535

/-- Flag byte selecting native decoding (src/plugins/sdk_compat.rs line 13). -/
def NATIVE_CALL_FLAG : Nat := 0xff

/-- Errors of the `ed` encoding library as used by the codec. -/
inductive EdError where
  | unexpectedByte (byte : Nat)
  | ioError (kind : String)
deriving DecidableEq, Repr

/-- Rust `sdk::Tx` (src/plugins/sdk_compat.rs lines 94-97): either an Amino
JSON transaction or a Protobuf `cosmrs::Tx`. The payload types are parameters
since both are external collaborators (serde / cosmrs). -/
inductive SdkTx (A P : Type) where
  | amino (tx : A)
  | protobuf (tx : P)
deriving DecidableEq, Repr

/-- Rust `Call<T>` of the SDK-compat plugin (src/plugins/sdk_compat.rs lines
34-37). -/
inductive SdkCall (T A P : Type) where
  | native (call : T)
  | sdk (tx : SdkTx A P)
deriving DecidableEq, Repr

/-- Rust `sdk::Tx::decode` (src/plugins/sdk_compat.rs lines 133-152). The
external parsers are passed in: `jsonDec` models `serde_json::from_slice`
(returning `none` on a parse failure) and `pbDec` models
`cosmrs::Tx::from_bytes`. -/
def SdkTx.decodeBytes {A P : Type} (jsonDec : Bytes → Option A)
    (pbDec : Bytes → Option P) (bytes : Bytes) : Except EdError (SdkTx A P) :=
  if bytes.length > MAX_CALL_SIZE ∨ bytes.isEmpty then
    .error (.unexpectedByte 0)
  else if bytes.head? = some 0x7b then
    match jsonDec bytes with
    | some tx => .ok (.amino tx)
    | none => .error (.unexpectedByte 123)
  else
    match pbDec bytes with
    | some tx => .ok (.protobuf tx)
    | none => .error (.ioError "InvalidData")

/-- Rust `impl Decode for Call<T>` (src/plugins/sdk_compat.rs lines 60-84):
reject envelopes over `MAX_CALL_SIZE`, then dispatch on the first byte —
`0xFF` means the remainder is a native call, an empty envelope is an
`UnexpectedEof` error, and anything else is handed whole to
`sdk::Tx::decode`. `nativeDec` models `T::decode`. -/
def SdkCall.decodeBytes {T A P : Type} (nativeDec : Bytes → Except EdError T)
    (jsonDec : Bytes → Option A) (pbDec : Bytes → Option P) (bytes : Bytes) :
    Except EdError (SdkCall T A P) :=
  if bytes.length > MAX_CALL_SIZE then
    .error (.unexpectedByte 0)
  else
    match bytes with
    | [] => .error (.ioError "UnexpectedEof")
    | b :: rest =>
      if b = NATIVE_CALL_FLAG then
        match nativeDec rest with
        | .ok inner => .ok (.native inner)
        | .error e => .error e
      else
        match SdkTx.decodeBytes jsonDec pbDec (b :: rest) with
        | .ok tx => .ok (.sdk tx)
        | .error e => .error e

/-- Rust `impl Encode for sdk::Tx` (src/plugins/sdk_compat.rs lines 99-131):
serialize via the external encoder, then reject results over
`MAX_CALL_SIZE`. `jsonEnc` models `serde_json::to_vec` (fallible), `pbEnc`
models the Protobuf `encode_to_vec` (total). -/
def SdkTx.encodeBytes {A P : Type} (jsonEnc : A → Option Bytes)
    (pbEnc : P → Bytes) : SdkTx A P → Except EdError Bytes
  | .amino tx =>
    match jsonEnc tx with
    | some bytes =>
      if bytes.length > MAX_CALL_SIZE then .error (.unexpectedByte 0)
      else .ok bytes
    | none => .error (.unexpectedByte 0)
  | .protobuf tx =>
    let bytes := pbEnc tx
    if bytes.length > MAX_CALL_SIZE then .error (.unexpectedByte 0)
    else .ok bytes

/-- Rust `impl Encode for Call<T>` (src/plugins/sdk_compat.rs lines 41-58):
a native call is the flag byte followed by the inner encoding — note no size
check on this branch — and an SDK transaction is its own encoding.
`nativeEnc` models `T::encode` (modelled total; the claims do not depend on
inner encoder failures). -/
def SdkCall.encodeBytes {T A P : Type} (nativeEnc : T → Bytes)
    (jsonEnc : A → Option Bytes) (pbEnc : P → Bytes) :
    SdkCall T A P → Except EdError Bytes
  | .native call => .ok (NATIVE_CALL_FLAG :: nativeEnc call)
  | .sdk tx => SdkTx.encodeBytes jsonEnc pbEnc tx

/-! ## Theorems: claims C3, C5, C6 -/

/-- C3: any transaction envelope longer than 65 535 bytes is rejected by
`Call::decode` before the payload is interpreted — the result is the size
error irrespective of the native decoder, the Amino JSON parser and the
Protobuf parser. -/
theorem oversized_envelope_rejected {T A P : Type}
    (nativeDec : Bytes → Except EdError T) (jsonDec : Bytes → Option A)
    (pbDec : Bytes → Option P) (bytes : Bytes)
    (hlen : bytes.length > 65535) :
    SdkCall.decodeBytes nativeDec jsonDec pbDec bytes =
      .error (.unexpectedByte 0) := by
  unfold SdkCall.decodeBytes MAX_CALL_SIZE
  simp [hlen]

/-- Witness for C3: a 65 536-byte envelope is rejected. -/
theorem oversized_envelope_rejected_witness :
    (List.replicate 65536 (0 : Nat)).length > 65535 ∧
      SdkCall.decodeBytes (fun b => .ok b) (fun _ => some ())
        (fun _ => some ()) (List.replicate 65536 (0 : Nat)) =
        .error (.unexpectedByte 0) :=
  ⟨by rw [List.length_replicate]; exact Nat.lt_succ_self 65535,
    oversized_envelope_rejected _ _ _ _
      (by rw [List.length_replicate]; exact Nat.lt_succ_self 65535)⟩

/-- C5: for envelopes of at most 65 535 bytes, `Call::decode` dispatches on
the first byte — `0xFF` decodes the remainder natively, `{` (0x7B) decodes
the whole body as Amino JSON, any other first byte decodes the whole body as
a Protobuf `cosmrs::Tx`, and the empty envelope is an error. -/
theorem envelope_first_byte_dispatch {T A P : Type}
    (nativeDec : Bytes → Except EdError T) (jsonDec : Bytes → Option A)
    (pbDec : Bytes → Option P) :
    (∀ rest : Bytes, (0xff :: rest).length ≤ 65535 →
      SdkCall.decodeBytes nativeDec jsonDec pbDec (0xff :: rest) =
        match nativeDec rest with
        | .ok inner => .ok (.native inner)
        | .error e => .error e) ∧
    (∀ rest : Bytes, (0x7b :: rest).length ≤ 65535 →
      SdkCall.decodeBytes nativeDec jsonDec pbDec (0x7b :: rest) =
        match jsonDec (0x7b :: rest) with
        | some tx => .ok (.sdk (.amino tx))
        | none => .error (.unexpectedByte 123)) ∧
    (∀ (b : Nat) (rest : Bytes), b ≠ 0xff → b ≠ 0x7b →
      (b :: rest).length ≤ 65535 →
      SdkCall.decodeBytes nativeDec jsonDec pbDec (b :: rest) =
        match pbDec (b :: rest) with
        | some tx => .ok (.sdk (.protobuf tx))
        | none => .error (.ioError "InvalidData")) ∧
    SdkCall.decodeBytes nativeDec jsonDec pbDec [] =
      .error (.ioError "UnexpectedEof") := by
  refine ⟨?_, ?_, ?_, ?_⟩
  · intro rest hlen
    simp only [List.length_cons] at hlen
    have hmax : ¬ (65535 < ((0xff : Nat) :: rest : Bytes).length) := by
      simp only [List.length_cons]; omega
    simp only [SdkCall.decodeBytes, MAX_CALL_SIZE, gt_iff_lt, hmax, if_false,
      NATIVE_CALL_FLAG, if_true]
  · intro rest hlen
    simp only [List.length_cons] at hlen
    have hmax : ¬ (65535 < ((0x7b : Nat) :: rest : Bytes).length) := by
      simp only [List.length_cons]; omega
    simp only [SdkCall.decodeBytes, SdkTx.decodeBytes, MAX_CALL_SIZE,
      gt_iff_lt, hmax, if_false, NATIVE_CALL_FLAG, List.isEmpty_cons,
      Bool.false_eq_true, or_false, List.head?_cons, Option.some.injEq]
    cases hj : jsonDec (0x7b :: rest) <;> simp [hj]
  · intro b rest hff h7b hlen
    simp only [List.length_cons] at hlen
    have hmax : ¬ (65535 < (b :: rest : Bytes).length) := by
      simp only [List.length_cons]; omega
    simp only [SdkCall.decodeBytes, SdkTx.decodeBytes, MAX_CALL_SIZE,
      gt_iff_lt, hmax, if_false, NATIVE_CALL_FLAG, hff, List.isEmpty_cons,
      Bool.false_eq_true, or_false, List.head?_cons, Option.some.injEq, h7b]
    cases hp : pbDec (b :: rest) <;> simp [hp]
  · simp only [SdkCall.decodeBytes, MAX_CALL_SIZE]
    simp

/-- Witness for C5: concrete envelopes exercising each dispatch case. -/
theorem envelope_first_byte_dispatch_witness :
    SdkCall.decodeBytes (T := Bytes) (A := Unit) (P := Unit)
        (fun b => .ok b) (fun _ => some ()) (fun _ => some ()) [0xff, 1, 2] =
      .ok (.native [1, 2]) ∧
    SdkCall.decodeBytes (T := Bytes) (A := Unit) (P := Unit)
        (fun b => .ok b) (fun _ => some ()) (fun _ => some ()) [0x7b, 9] =
      .ok (.sdk (.amino ())) ∧
    SdkCall.decodeBytes (T := Bytes) (A := Unit) (P := Unit)
        (fun b => .ok b) (fun _ => some ()) (fun _ => some ()) [5, 9] =
      .ok (.sdk (.protobuf ())) ∧
    SdkCall.decodeBytes (T := Bytes) (A := Unit) (P := Unit)
        (fun b => .ok b) (fun _ => some ()) (fun _ => some ()) [] =
      .error (.ioError "UnexpectedEof") := by
  have h := envelope_first_byte_dispatch (T := Bytes) (A := Unit) (P := Unit)
    (fun b => .ok b) (fun _ => some ()) (fun _ => some ())
  exact ⟨h.1 [1, 2] (by decide), h.2.1 [9] (by decide),
    h.2.2.1 5 [9] (by decide) (by decide) (by decide), h.2.2.2⟩

/-- Counterexample for C6: the native branch of `Call::encode` performs no
size check, so an inner call whose encoding occupies 65 535 bytes encodes
successfully to a 65 536-byte envelope which `Call::decode` then rejects —
decode∘encode is not the identity for every inner call value. -/
theorem native_roundtrip_cex :
    SdkCall.encodeBytes (T := Bytes) (A := Unit) (P := Unit)
        (fun b => b) (fun _ => some []) (fun _ => [])
        (.native (List.replicate 65535 (0 : Nat))) =
      .ok (NATIVE_CALL_FLAG :: List.replicate 65535 (0 : Nat)) ∧
    SdkCall.decodeBytes (T := Bytes) (A := Unit) (P := Unit)
        (fun b => .ok b) (fun _ => some ()) (fun _ => some ())
        (NATIVE_CALL_FLAG :: List.replicate 65535 (0 : Nat)) ≠
      .ok (.native (List.replicate 65535 (0 : Nat))) := by
  have hdec : SdkCall.decodeBytes (T := Bytes) (A := Unit) (P := Unit)
      (fun b => .ok b) (fun _ => some ()) (fun _ => some ())
      (NATIVE_CALL_FLAG :: List.replicate 65535 (0 : Nat)) =
      .error (.unexpectedByte 0) := by
    unfold SdkCall.decodeBytes
    rw [if_pos (show (NATIVE_CALL_FLAG :: List.replicate 65535 (0 : Nat) :
        Bytes).length > MAX_CALL_SIZE from by
      rw [List.length_cons, List.length_replicate]
      exact Nat.lt_succ_self 65535)]
  refine ⟨rfl, ?_⟩
  rw [hdec]
  intro hcontra
  exact Except.noConfusion hcontra

/-- C6 (amended): whenever the inner codec round-trips on `x` and the native
encoding of `x` together with the flag byte fits in 65 535 bytes, decoding
the encoding of `Call::Native(x)` yields `Call::Native(x)`. -/
theorem native_roundtrip {T A P : Type} (nativeEnc : T → Bytes)
    (nativeDec : Bytes → Except EdError T) (jsonEnc : A → Option Bytes)
    (pbEnc : P → Bytes) (jsonDec : Bytes → Option A)
    (pbDec : Bytes → Option P) (x : T)
    (hrt : nativeDec (nativeEnc x) = .ok x)
    (hlen : (nativeEnc x).length + 1 ≤ 65535) :
    ∃ bytes : Bytes,
      SdkCall.encodeBytes nativeEnc jsonEnc pbEnc (.native x) = .ok bytes ∧
      SdkCall.decodeBytes nativeDec jsonDec pbDec bytes =
        .ok (.native x) := by
  refine ⟨NATIVE_CALL_FLAG :: nativeEnc x, rfl, ?_⟩
  have hmax : ¬ (65535 < ((0xff : Nat) :: nativeEnc x : Bytes).length) := by
    simp only [List.length_cons]; omega
  simp only [SdkCall.decodeBytes, MAX_CALL_SIZE, gt_iff_lt, NATIVE_CALL_FLAG,
    hmax, if_false, if_true, hrt]

/-- Witness for C6 (amended): a small native call round-trips. -/
theorem native_roundtrip_witness :
    ∃ bytes : Bytes,
      SdkCall.encodeBytes (T := Bytes) (A := Unit) (P := Unit)
          (fun b => b) (fun _ => some []) (fun _ => []) (.native [7, 8]) =
        .ok bytes ∧
      SdkCall.decodeBytes (T := Bytes) (A := Unit) (P := Unit)
          (fun b => .ok b) (fun _ => some ()) (fun _ => some ()) bytes =
        .ok (.native [7, 8]) :=
  native_roundtrip _ _ _ _ _ _ [7, 8] rfl (by decide)

/-! ## Layered buffered store (overlay maps)

The dispatcher parks its consensus and mempool overlays as ordered maps of
keys to optional values (`BufStoreMap` in src/abci/mod.rs, backed by
`store::BufStore`). The `BufStore` operations themselves live in
`src/store/bufstore.rs`, which is not under `src/`. -/

/-- A write operation issued by a handler against its lent store view. -/
inductive WOp where
  | put (key value : Bytes)
  | del (key : Bytes)
deriving DecidableEq, Repr

/-- The backing map of a `MapStore` (Rust `BTreeMap<Vec<u8>, Vec<u8>>`),
modelled as an association list with unique keys; insertion replaces in
place, so lookups agree with the BTreeMap. -/
abbrev MapStore := List (Bytes × Bytes)

/-- A parked overlay map (Rust `BufStoreMap = BTreeMap<Vec<u8>,
Option<Vec<u8>>>`): `some v` is a pending put, `none` a pending delete. -/
abbrev BufStoreMap := List (Bytes × Option Bytes)

/-- Lookup in a `MapStore`. -/
def mapGet : MapStore → Bytes → Option Bytes
  | [], _ => none
  | (k, v) :: rest, key => if k = key then some v else mapGet rest key

/-- Rust `BTreeMap::insert` on a `MapStore`: replace the binding in place or
append a new one. -/
def mapPut : MapStore → Bytes → Bytes → MapStore
  | [], key, val => [(key, val)]
  | (k, v) :: rest, key, val =>
    if k = key then (k, val) :: rest else (k, v) :: mapPut rest key val

/-- Rust `BTreeMap::remove` on a `MapStore`. -/
def mapDel : MapStore → Bytes → MapStore
  | [], _ => []
  | (k, v) :: rest, key =>
    if k = key then rest else (k, v) :: mapDel rest key

/-- Lookup in an overlay map: `some (some v)` pending put, `some none`
pending delete (tombstone), `none` absent. -/
def bufGet : BufStoreMap → Bytes → Option (Option Bytes)
  | [], _ => none
  | (k, v) :: rest, key => if k = key then some v else bufGet rest key

/-- Rust `BTreeMap::insert` on an overlay map. -/
def bufInsert : BufStoreMap → Bytes → Option Bytes → BufStoreMap
  | [], key, val => [(key, val)]
  | (k, v) :: rest, key, val =>
    if k = key then (k, val) :: rest else (k, v) :: bufInsert rest key val

/-- Record a handler's write operations into an overlay map (Rust
`BufStore::put`/`delete`: a put stores `Some(value)`, a delete stores
`None`). -/
def applyWOps (buf : BufStoreMap) : List WOp → BufStoreMap
  | [] => buf
  | .put k v :: rest => applyWOps (bufInsert buf k (some v)) rest
  | .del k :: rest => applyWOps (bufInsert buf k none) rest

/-- Modelled from the spec: `BufStore::flush` into a `MapStore` parent
(src/store/bufstore.rs is not under src/) — drain the overlay, applying each
pending put or delete to the parent, then clear. Since keys are unique the
resulting map does not depend on the drain order. -/
def flushBufToMap (buf : BufStoreMap) (parent : MapStore) : MapStore :=
  buf.foldl
    (fun m e =>
      match e with
      | (k, some v) => mapPut m k v
      | (k, none) => mapDel m k)
    parent

/-- Modelled from the spec: `BufStore::flush` into a `BufStore` parent —
each pending entry of the inner overlay is recorded in the outer overlay. -/
def flushBufToBuf (buf : BufStoreMap) (parent : BufStoreMap) : BufStoreMap :=
  buf.foldl (fun p e => bufInsert p e.1 e.2) parent

/-! ## ABCI state machine (src/abci/mod.rs) -/

/-- Block header as far as the dispatcher consumes it: the
consensus-provided height (an `i64`). -/
structure Header where
  height : Int
deriving DecidableEq, Repr

/-- Rust `u64` wrapping cast of an `i64` (`as u64`). -/
def toU64 (i : Int) : Nat := (i % (2 ^ 64)).toNat

/-- Rust `MemStore` (src/abci/mod.rs lines 550-562): the in-src
`ABCIStore` implementation, holding a height and a `MapStore`. -/
structure MemStore where
  height : Nat
  store : MapStore
deriving DecidableEq, Repr

/-- Rust `MemStore::root_hash` (src/abci/mod.rs lines 599-602): returns the
empty byte string. -/
def MemStore.rootHash (_ : MemStore) : Bytes := []

/-- Rust `MemStore::commit` (src/abci/mod.rs lines 604-607): set the store's
height to the committed header's height (cast `as u64`). -/
def MemStore.commitStore (s : MemStore) (hdr : Header) : MemStore :=
  { s with height := toU64 hdr.height }

/-- A read of the two-level view a handler is lent: overlay entries win
(tombstones hide the parent) and absent keys fall through to the backing
`MemStore` (Rust `BufStore::get`). -/
def readOver (buf : BufStoreMap) (s : MemStore) (key : Bytes) : Option Bytes :=
  match bufGet buf key with
  | some pending => pending
  | none => mapGet s.store key

/-- The `ResponseQuery` fields the dispatcher constructs (src/abci/mod.rs
lines 120-130). `height` models the Rust `i64` field restricted to the
dispatcher's `u64` counter (cast `as i64`); `hasProofOps` models whether
`proof_ops` is `Some`. -/
structure ResponseQuery where
  code : Nat
  log : String
  info : String
  codespace : String
  height : Nat
  index : Nat
  key : Bytes
  value : Bytes
  hasProofOps : Bool
deriving DecidableEq, Repr

/-- ABCI requests handled by the embedded dispatcher (the claims under
verification concern Query, BeginBlock, DeliverTx, EndBlock and Commit). -/
inductive Req where
  | query (q : Bytes)
  | beginBlock (hdr : Header)
  | deliverTx (tx : Bytes)
  | endBlock (height : Int)
  | commit
deriving DecidableEq, Repr

/-- The corresponding ABCI responses (`Res` values) as far as the claims
observe them: a DeliverTx response carries its code and log, a Commit
response carries its data (the root hash). -/
inductive Res where
  | query (r : ResponseQuery)
  | beginBlock
  | deliverTx (code : Nat) (log : String)
  | endBlock
  | commit (data : Bytes)
deriving DecidableEq, Repr

/-- The application handlers the dispatcher invokes, as functions from the
read view they are lent to either an error or the writes they perform (plus,
for queries, a response). The per-handler interleaving of reads and writes
is abstracted into the final write list, which loses no generality for the
dispatcher-level claims. -/
structure Application where
  beginBlockH : (Bytes → Option Bytes) → Header → Except OrgaError (List WOp)
  deliverTxH : (Bytes → Option Bytes) → Bytes → Except OrgaError (List WOp)
  endBlockH : (Bytes → Option Bytes) → Int → Except OrgaError (List WOp)
  queryH : (Bytes → Option Bytes) → Bytes → Except OrgaError ResponseQuery

/-- Modelled from the spec: the `Application` impl for the plugin stack
lives in `src/abci/node.rs`, which is not under src/. Per the spec's
DeliverTx propagation policy, it catches a failure of the transaction
handler: on success the handler's writes enter the per-tx inner overlay and
the tx code is 0; on failure the per-tx writes are dropped and a non-zero
tx code (1) with the error text is reported, without surfacing an `Err` to
the dispatcher. -/
def appDeliverTx (app : Application) (read : Bytes → Option Bytes)
    (tx : Bytes) : List WOp × Nat × String :=
  match app.deliverTxH read tx with
  | .ok ws => (ws, 0, "")
  | .error e => ([], 1, e.text)

/-- The dispatcher's state (Rust `ABCIStateMachine` fields, src/abci/mod.rs
lines 33-45): the `MemStore`, the parked mempool and consensus overlays, the
height recorded by the last EndBlock, and the header stored by the last
BeginBlock. -/
structure SM where
  store : MemStore
  mempoolState : BufStoreMap
  consensusState : BufStoreMap
  height : Nat
  header : Option Header
deriving DecidableEq, Repr

/-- Rust `ABCIStateMachine::new` (src/abci/mod.rs lines 51-72): empty
overlays, height 0, no header, over the given store. -/
def SM.new (store : MemStore) : SM :=
  { store := store, mempoolState := [], consensusState := [], height := 0,
    header := none }

/-- Process-wide configuration: the optional ORGA_STOP_HEIGHT value. The
environment variable is modelled as an optional natural number (the source
panics at startup on a value that does not parse as an integer). -/
structure Config where
  stopHeight : Option Nat
deriving DecidableEq, Repr

/-- Rust `ABCIStateMachine::run` (src/abci/mod.rs lines 79-356) restricted
to the requests the claims concern.

* Query (lines 114-136): run the handler against the bare store; on error
  reply `code 1`, log and info the error text, the dispatcher's height
  counter, empty key/value and no proof.
* BeginBlock (lines 168-209): fail when a stop height is set and the header
  height exceeds it; otherwise store the header, run the handler over the
  consensus overlay with a fresh inner overlay, and on success flush the
  inner overlay into the consensus overlay.
* DeliverTx (lines 211-241): run the (error-catching) application wrapper;
  flush the inner overlay into the consensus overlay and the consensus
  overlay into the store, leaving the parked consensus overlay empty.
* EndBlock (lines 242-268): record the reported height, then as BeginBlock.
* Commit (lines 270-294): flush the consensus overlay into the store,
  commit the header stored at the last BeginBlock (the source unwraps it
  and would panic with none present — modelled as an error, a case no claim
  exercises), reset both overlays to empty and reply with the new root
  hash.

A handler `Err` in BeginBlock, EndBlock (and the modelled Commit panic)
propagates as an `Err` of `run`. -/
def SM.runReq (cfg : Config) (app : Application) (sm : SM) :
    Req → Except OrgaError (SM × Res)
  | .query q =>
    match app.queryH (mapGet sm.store.store) q with
    | .ok r => .ok (sm, .query r)
    | .error e =>
      .ok (sm, .query
        { code := 1, log := e.text, info := e.text, codespace := "",
          height := sm.height, index := 0, key := [], value := [],
          hasProofOps := false })
  | .beginBlock hdr =>
    match cfg.stopHeight with
    | some stop =>
      if hdr.height > (stop : Int) then
        .error (.ABCI ("Reached stop height (" ++ toString stop ++ ")"))
      else
        match app.beginBlockH (readOver sm.consensusState sm.store) hdr with
        | .error e => .error e
        | .ok ws =>
          .ok ({ sm with
                 header := some hdr,
                 consensusState :=
                   flushBufToBuf (applyWOps [] ws) sm.consensusState },
            .beginBlock)
    | none =>
      match app.beginBlockH (readOver sm.consensusState sm.store) hdr with
      | .error e => .error e
      | .ok ws =>
        .ok ({ sm with
               header := some hdr,
               consensusState :=
                 flushBufToBuf (applyWOps [] ws) sm.consensusState },
          .beginBlock)
  | .deliverTx tx =>
    match appDeliverTx app (readOver sm.consensusState sm.store) tx with
    | (ws, code, log) =>
      let consensus1 := flushBufToBuf (applyWOps [] ws) sm.consensusState
      .ok ({ sm with
             store := { sm.store with
                        store := flushBufToMap consensus1 sm.store.store },
             consensusState := [] },
        .deliverTx code log)
  | .endBlock h =>
    match app.endBlockH (readOver sm.consensusState sm.store) h with
    | .error e => .error e
    | .ok ws =>
      .ok ({ sm with
             height := toU64 h,
             consensusState :=
               flushBufToBuf (applyWOps [] ws) sm.consensusState },
        .endBlock)
  | .commit =>
    match sm.header with
    | none => .error (.ABCI "panicked: Commit before any BeginBlock header")
    | some hdr =>
      let flushed : MemStore :=
        { sm.store with store := flushBufToMap sm.consensusState sm.store.store }
      let committed := MemStore.commitStore flushed hdr
      .ok ({ sm with
             store := committed,
             mempoolState := [],
             consensusState := [] },
        .commit committed.rootHash)

/-- Outcome of one iteration of the dispatcher loop. -/
inductive Step where
  | reply (sm : SM) (res : Res)
  | fatalErr (e : OrgaError)
  | stopped (res : Res) (e : OrgaError)
deriving DecidableEq, Repr

/-- Rust `ABCIStateMachine::listen` loop body (src/abci/mod.rs lines
378-426): on a `run` error, set the shared shutdown flag and exit with the
error (`fatalErr`); on success send the reply, and — only after a Commit —
when a stop height is configured and the dispatcher's height counter has
reached it, set the shutdown notifier and exit cleanly with the
stop-height error (`stopped`); otherwise keep looping (`reply`). -/
def listenStep (cfg : Config) (app : Application) (sm : SM) (req : Req) :
    Step :=
  match SM.runReq cfg app sm req with
  | .error e => .fatalErr e
  | .ok (sm1, res) =>
    match req with
    | .commit =>
      match cfg.stopHeight with
      | some stop =>
        if sm1.height ≥ stop then
          .stopped res
            (.ABCI ("Reached stop height (" ++ toString stop ++ ")"))
        else .reply sm1 res
      | none => .reply sm1 res
    | _ => .reply sm1 res

/-! ## Theorems: claims C1, C2, C4, C7 -/

/-- C1: when the transaction handler fails, the per-tx inner overlay is
discarded — the store receives exactly the previously parked consensus
overlay, with none of the failed transaction's writes — the DeliverTx
response carries the non-zero code 1 with the error text, and the loop
outcome is `reply`: the dispatcher does not abort the block and continues
with subsequent requests. -/
theorem deliver_tx_error_rolls_back (cfg : Config) (app : Application)
    (sm : SM) (tx : Bytes) (e : OrgaError)
    (h : app.deliverTxH (readOver sm.consensusState sm.store) tx = .error e) :
    listenStep cfg app sm (.deliverTx tx) =
      .reply { sm with
               store := { sm.store with
                          store := flushBufToMap sm.consensusState
                            sm.store.store },
               consensusState := [] }
        (.deliverTx 1 e.text) ∧
    (1 : Nat) ≠ 0 := by
  refine ⟨?_, by decide⟩
  simp only [listenStep, SM.runReq, appDeliverTx, h, applyWOps, flushBufToBuf,
    List.foldl]

/-- Application whose transaction and query handlers fail with a fixed
error, used to witness the error-path claims. -/
def failingApp : Application :=
  { beginBlockH := fun _ _ => .ok [],
    deliverTxH := fun _ _ => .error (.App "boom"),
    endBlockH := fun _ _ => .ok [],
    queryH := fun _ _ => .error (.App "boom") }

/-- Application whose handlers all succeed without writes. -/
def quietApp : Application :=
  { beginBlockH := fun _ _ => .ok [],
    deliverTxH := fun _ _ => .ok [],
    endBlockH := fun _ _ => .ok [],
    queryH := fun _ _ =>
      .ok { code := 0, log := "", info := "", codespace := "", height := 0,
            index := 0, key := [], value := [], hasProofOps := false } }

/-- Witness for C1: a concrete failing DeliverTx replies code 1 and the
dispatcher keeps going. -/
theorem deliver_tx_error_rolls_back_witness :
    listenStep ⟨none⟩ failingApp (SM.new ⟨0, []⟩) (.deliverTx [1]) =
      .reply { SM.new ⟨0, []⟩ with
               store := { (SM.new ⟨0, []⟩).store with
                          store := flushBufToMap
                            (SM.new ⟨0, []⟩).consensusState
                            (SM.new ⟨0, []⟩).store.store },
               consensusState := [] }
        (.deliverTx 1 "boom") ∧
    (1 : Nat) ≠ 0 :=
  deliver_tx_error_rolls_back ⟨none⟩ failingApp (SM.new ⟨0, []⟩) [1]
    (.App "boom") rfl

/-- C2: a Commit performed after a BeginBlock stored header `hdr` succeeds,
leaves both the consensus and the mempool overlay empty, sets the store's
height to the header's height (for any height representable as a `u64`),
and replies with the new store's root hash as its data. -/
theorem commit_resets_overlays (cfg : Config) (app : Application) (sm : SM)
    (hdr : Header) (hh : sm.header = some hdr) (h0 : 0 ≤ hdr.height)
    (h1 : hdr.height < 2 ^ 64) :
    ∃ sm1 : SM,
      SM.runReq cfg app sm .commit = .ok (sm1, .commit sm1.store.rootHash) ∧
      sm1.consensusState = [] ∧ sm1.mempoolState = [] ∧
      (sm1.store.height : Int) = hdr.height := by
  refine ⟨{ sm with
            store := MemStore.commitStore
              { sm.store with
                store := flushBufToMap sm.consensusState sm.store.store } hdr,
            mempoolState := [],
            consensusState := [] }, ?_, rfl, rfl, ?_⟩
  · simp only [SM.runReq, hh]
  · simp only [MemStore.commitStore, toU64]
    rw [Int.emod_eq_of_lt h0 h1, Int.toNat_of_nonneg h0]

/-- Witness for C2: committing after a BeginBlock at height 3. -/
theorem commit_resets_overlays_witness :
    ∃ sm1 : SM,
      SM.runReq ⟨none⟩ quietApp
          { SM.new ⟨0, []⟩ with header := some ⟨3⟩ } .commit =
        .ok (sm1, .commit sm1.store.rootHash) ∧
      sm1.consensusState = [] ∧ sm1.mempoolState = [] ∧
      (sm1.store.height : Int) = (3 : Int) :=
  commit_resets_overlays ⟨none⟩ quietApp
    { SM.new ⟨0, []⟩ with header := some ⟨3⟩ } ⟨3⟩ rfl (by decide) (by decide)

/-- C4: with ORGA_STOP_HEIGHT configured to `stop` (a value below 2^63, so
that the source's `i64` parse in BeginBlock also succeeds), (a) every
BeginBlock whose header height exceeds the stop height makes the dispatcher
exit with the fatal stop-height error, and (b) when the dispatcher's height
counter — equal, for a well-formed block, to the height the store holds
after committing the stored header — has reached the stop height, the
Commit succeeds, the post-commit store height is at least the stop height,
and the loop terminates cleanly with the stop-height error after sending
the Commit reply. -/
theorem stop_height_behaviour (cfg : Config) (app : Application) (sm : SM)
    (stop : Nat) (hdr : Header) (hcfg : cfg.stopHeight = some stop)
    (_hrepr : (stop : Int) < 2 ^ 63) (hh : sm.header = some hdr)
    (hwf : toU64 hdr.height = sm.height) :
    (∀ h2 : Header, h2.height > (stop : Int) →
      listenStep cfg app sm (.beginBlock h2) =
        .fatalErr (.ABCI ("Reached stop height (" ++ toString stop ++ ")"))) ∧
    (stop ≤ sm.height →
      ∃ (sm1 : SM) (res : Res),
        SM.runReq cfg app sm .commit = .ok (sm1, res) ∧
        stop ≤ sm1.store.height ∧
        listenStep cfg app sm .commit =
          .stopped res
            (.ABCI ("Reached stop height (" ++ toString stop ++ ")"))) ∧
    (sm.height < stop →
      ∃ (sm1 : SM) (res : Res),
        listenStep cfg app sm .commit = .reply sm1 res) := by
  refine ⟨?_, ?_, ?_⟩
  · intro h2 hgt
    simp only [listenStep, SM.runReq, hcfg]
    rw [if_pos hgt]
  · intro hge
    refine ⟨{ sm with
              store := MemStore.commitStore
                { sm.store with
                  store := flushBufToMap sm.consensusState sm.store.store }
                hdr,
              mempoolState := [],
              consensusState := [] }, .commit [], ?_, ?_, ?_⟩
    · simp only [SM.runReq, hh]
      rfl
    · simpa only [MemStore.commitStore, hwf] using hge
    · simp only [listenStep, SM.runReq, hh, hcfg]
      rw [if_pos hge]
      rfl
  · intro hlt
    refine ⟨{ sm with
              store := MemStore.commitStore
                { sm.store with
                  store := flushBufToMap sm.consensusState sm.store.store }
                hdr,
              mempoolState := [],
              consensusState := [] },
      .commit (MemStore.commitStore
        { sm.store with
          store := flushBufToMap sm.consensusState sm.store.store }
        hdr).rootHash, ?_⟩
    simp only [listenStep, SM.runReq, hh, hcfg]
    rw [if_neg (by omega)]

/-- Witness for C4: stop height 5, a block at height 5 committed, a
BeginBlock at height 6 rejected. -/
theorem stop_height_behaviour_witness :
    (listenStep ⟨some 5⟩ quietApp
        { SM.new ⟨0, []⟩ with header := some ⟨5⟩, height := 5 }
        (.beginBlock ⟨6⟩) =
      .fatalErr (.ABCI "Reached stop height (5)")) ∧
    (∃ (sm1 : SM) (res : Res),
      SM.runReq ⟨some 5⟩ quietApp
          { SM.new ⟨0, []⟩ with header := some ⟨5⟩, height := 5 } .commit =
        .ok (sm1, res) ∧
      5 ≤ sm1.store.height ∧
      listenStep ⟨some 5⟩ quietApp
          { SM.new ⟨0, []⟩ with header := some ⟨5⟩, height := 5 } .commit =
        .stopped res (.ABCI "Reached stop height (5)")) ∧
    ∃ (sm1 : SM) (res : Res),
      listenStep ⟨some 5⟩ quietApp
          { SM.new ⟨0, []⟩ with header := some ⟨4⟩, height := 4 } .commit =
        .reply sm1 res := by
  have h := stop_height_behaviour ⟨some 5⟩ quietApp
    { SM.new ⟨0, []⟩ with header := some ⟨5⟩, height := 5 } 5 ⟨5⟩ rfl
    (by decide) rfl (by decide)
  have h4 := stop_height_behaviour ⟨some 5⟩ quietApp
    { SM.new ⟨0, []⟩ with header := some ⟨4⟩, height := 4 } 5 ⟨4⟩ rfl
    (by decide) rfl (by decide)
  exact ⟨h.1 ⟨6⟩ (by decide), h.2.1 (by decide), h4.2.2 (by decide)⟩

/-- Counterexample for C7: the dispatcher's error reply carries its own
height counter, which EndBlock — not Commit — advances. On a fresh chain,
an EndBlock reporting height 5 followed by a failing Query (queries arrive
on their own connection and may interleave before the Commit) yields a
reply with height 5, while no block has been committed: the store's
committed height is still 0. -/
theorem query_error_height_cex :
    SM.runReq ⟨none⟩ failingApp (SM.new ⟨0, []⟩) (.endBlock 5) =
      .ok ({ SM.new ⟨0, []⟩ with height := 5 }, .endBlock) ∧
    SM.runReq ⟨none⟩ failingApp { SM.new ⟨0, []⟩ with height := 5 }
        (.query []) =
      .ok ({ SM.new ⟨0, []⟩ with height := 5 }, .query
        { code := 1, log := "boom", info := "boom", codespace := "",
          height := 5, index := 0, key := [], value := [],
          hasProofOps := false }) ∧
    ({ SM.new ⟨0, []⟩ with height := 5 } : SM).store.height = 0 ∧
    (5 : Nat) ≠ 0 :=
  ⟨rfl, rfl, rfl, by decide⟩

/-- C7 (amended): when the Query handler fails, the reply has code 1, log
and info both the error text, height equal to the dispatcher's height
counter — the height recorded by the last EndBlock, 0 before any EndBlock
since process start — and empty key, value and proof fields; the state is
unchanged. -/
theorem query_error_reply (cfg : Config) (app : Application) (sm : SM)
    (q : Bytes) (e : OrgaError)
    (h : app.queryH (mapGet sm.store.store) q = .error e) :
    SM.runReq cfg app sm (.query q) =
      .ok (sm, .query
        { code := 1, log := e.text, info := e.text, codespace := "",
          height := sm.height, index := 0, key := [], value := [],
          hasProofOps := false }) := by
  simp only [SM.runReq, h]

/-- Witness for C7 (amended): a failing query against a dispatcher whose
counter is 7. -/
theorem query_error_reply_witness :
    SM.runReq ⟨none⟩ failingApp
        { SM.new ⟨0, []⟩ with height := 7 } (.query [2]) =
      .ok ({ SM.new ⟨0, []⟩ with height := 7 }, .query
        { code := 1, log := "boom", info := "boom", codespace := "",
          height := 7, index := 0, key := [], value := [],
          hasProofOps := false }) :=
  query_error_reply ⟨none⟩ failingApp
    { SM.new ⟨0, []⟩ with height := 7 } [2] (.App "boom") rfl

/-! ## Accounts (src/coins/accounts.rs) -/

/-- Account addresses (opaque to the claims; modelled as naturals). -/
abbrev Address := Nat

/-- A coin balance (`Coin<S>`; the symbol has no behavioural content for
the claims, the amount is a `u64`). -/
structure Coin where
  amount : Nat
deriving DecidableEq, Repr

/-- Modelled from the spec: `Coin::take` (the `Take` impl for `Coin<S>`,
not under src/) — a monetary subtraction is total, failing with an
`Insufficient funds` error when more than the balance is taken, else
splitting the coin. -/
def Coin.take (c : Coin) (amt : Nat) : Except OrgaError (Coin × Coin) :=
  if c.amount < amt then .error (.Coins "Insufficient funds")
  else .ok ({ amount := c.amount - amt }, { amount := amt })

/-- Modelled from the spec: `Coin::give` (the `Give` impl, not under
src/) — adds the given coin's amount to the balance; the claims under test
do not exercise overflow, modelled as unbounded addition. -/
def Coin.give (c g : Coin) : Coin := { amount := c.amount + g.amount }

/-- Lookup in the `accounts` map (`collections::Map<Address, Coin<S>>`,
modelled in memory with unique keys). -/
def accGet : List (Address × Coin) → Address → Option Coin
  | [], _ => none
  | (k, v) :: rest, key => if k = key then some v else accGet rest key

/-- Insert or replace in the `accounts` map. -/
def accPut : List (Address × Coin) → Address → Coin → List (Address × Coin)
  | [], key, val => [(key, val)]
  | (k, v) :: rest, key, val =>
    if k = key then (k, val) :: rest else (k, v) :: accPut rest key val

/-- The `Accounts<S>` state (src/coins/accounts.rs lines 15-20). The
`pub_keys` map is omitted: its `State` impl is declared unreachable. -/
structure Accounts where
  transfersAllowed : Bool
  transferExceptions : List Address
  accounts : List (Address × Coin)
deriving DecidableEq, Repr

/-- Modelled from the spec: the Signer context as consumed by
`Accounts::signer` (src/coins/accounts.rs lines 117-122; the context
machinery is not under src/) — `none` is an absent context, `some none` a
context with no recovered address, `some (some a)` a recovered signer. -/
def signerAddress : Option (Option Address) → Except OrgaError Address
  | none => .error (.SignerErr "No Signer context available")
  | some none => .error (.Coins "Unauthorized account action")
  | some (some a) => .ok a

/-- Rust `Accounts::take_own_coins` (src/coins/accounts.rs lines 105-115):
resolve the signer, fail with `Insufficient funds` when the signer has no
account, otherwise take the amount from the signer's coin. -/
def Accounts.takeOwnCoins (ctx : Option (Option Address)) (acc : Accounts)
    (amount : Nat) : Except OrgaError (Accounts × Coin) :=
  match signerAddress ctx with
  | .error e => .error e
  | .ok signer =>
    match accGet acc.accounts signer with
    | none => .error (.Coins "Insufficient funds")
    | some coin =>
      match coin.take amount with
      | .error e => .error e
      | .ok (remaining, taken) =>
        .ok ({ acc with accounts := accPut acc.accounts signer remaining },
          taken)

/-- Rust `Accounts::transfer` (src/coins/accounts.rs lines 72-82): resolve
the signer, reject when transfers are disabled and the signer is not in the
exception set, then move the taken coins into the receiver's account
(created at its default if absent). -/
def Accounts.transfer (ctx : Option (Option Address)) (acc : Accounts)
    (receiver : Address) (amount : Nat) : Except OrgaError Accounts :=
  match signerAddress ctx with
  | .error e => .error e
  | .ok signer =>
    if acc.transfersAllowed = false ∧
        signer ∉ acc.transferExceptions then
      .error (.Coins "Transfers are currently disabled")
    else
      match Accounts.takeOwnCoins ctx acc amount with
      | .error e => .error e
      | .ok (acc1, taken) =>
        let recv := (accGet acc1.accounts receiver).getD { amount := 0 }
        .ok { acc1 with
              accounts := accPut acc1.accounts receiver (recv.give taken) }

/-- Rust `Accounts::balance` (src/coins/accounts.rs lines 156-162). -/
def Accounts.balance (acc : Accounts) (address : Address) : Nat :=
  match accGet acc.accounts address with
  | some coin => coin.amount
  | none => 0

/-- Helper: every error `take_own_coins` produces for a resolved signer is
the `Insufficient funds` error. -/
theorem takeOwnCoins_error_insufficient (acc : Accounts) (a : Address)
    (amount : Nat) (e : OrgaError)
    (h : Accounts.takeOwnCoins (some (some a)) acc amount = .error e) :
    e = .Coins "Insufficient funds" := by
  simp only [Accounts.takeOwnCoins, signerAddress] at h
  cases hacc : accGet acc.accounts a <;> rw [hacc] at h
  · exact (Except.error.inj h).symm
  · rename_i coin
    simp only [Coin.take] at h
    by_cases hlt : coin.amount < amount
    · rw [if_pos hlt] at h
      exact (Except.error.inj h).symm
    · rw [if_neg hlt] at h
      exact absurd h (by simp)

/-! ## Theorems: claim C8 -/

/-- C8: monetary mutations in `Accounts` are total, with the failure modes
the spec states: for a resolved signer `a`, (a) taking more than the
signer's balance fails with the `Insufficient funds` error, (b) `transfer`
fails with the `Transfers are currently disabled` error when the
transfers-disabled flag is in effect and the signer is not in the exception
set, and (c) a signer in the exception set never receives the
transfers-disabled error. -/
theorem accounts_monetary_totality (ctx : Option (Option Address))
    (acc : Accounts) (a receiver : Address) (amount : Nat)
    (hs : ctx = some (some a)) :
    (acc.balance a < amount →
      Accounts.takeOwnCoins ctx acc amount =
        .error (.Coins "Insufficient funds")) ∧
    (acc.transfersAllowed = false →
      a ∉ acc.transferExceptions →
      Accounts.transfer ctx acc receiver amount =
        .error (.Coins "Transfers are currently disabled")) ∧
    (a ∈ acc.transferExceptions →
      Accounts.transfer ctx acc receiver amount ≠
        .error (.Coins "Transfers are currently disabled")) := by
  subst hs
  refine ⟨?_, ?_, ?_⟩
  · intro hlt
    simp only [Accounts.takeOwnCoins, signerAddress]
    cases hacc : accGet acc.accounts a
    · rfl
    · rename_i coin
      have hcoin : coin.amount < amount := by
        simpa only [Accounts.balance, hacc] using hlt
      simp only [Coin.take, if_pos hcoin]
  · intro hdis hexc
    simp only [Accounts.transfer, signerAddress]
    rw [if_pos ⟨hdis, hexc⟩]
  · intro hexc
    simp only [Accounts.transfer, signerAddress]
    rw [if_neg (fun hcond => hcond.2 hexc)]
    cases h1 : Accounts.takeOwnCoins (some (some a)) acc amount with
    | error e =>
      have he := takeOwnCoins_error_insufficient acc a amount e h1
      subst he
      simp
    | ok p =>
      simp

/-- Witness for C8: a signer with balance 5 cannot take 6; with transfers
disabled a non-excepted signer cannot transfer, an excepted one is not
blocked by the flag. -/
theorem accounts_monetary_totality_witness :
    (Accounts.balance ⟨false, [2], [(1, ⟨5⟩)]⟩ 1 < 6 →
      Accounts.takeOwnCoins (some (some 1)) ⟨false, [2], [(1, ⟨5⟩)]⟩ 6 =
        .error (.Coins "Insufficient funds")) ∧
    ((⟨false, [2], [(1, ⟨5⟩)]⟩ : Accounts).transfersAllowed = false →
      (1 : Address) ∉ (⟨false, [2], [(1, ⟨5⟩)]⟩ : Accounts).transferExceptions →
      Accounts.transfer (some (some 1)) ⟨false, [2], [(1, ⟨5⟩)]⟩ 9 6 =
        .error (.Coins "Transfers are currently disabled")) ∧
    ((1 : Address) ∈ (⟨false, [2], [(1, ⟨5⟩)]⟩ : Accounts).transferExceptions →
      Accounts.transfer (some (some 1)) ⟨false, [2], [(1, ⟨5⟩)]⟩ 9 6 ≠
        .error (.Coins "Transfers are currently disabled")) :=
  accounts_monetary_totality (some (some 1)) ⟨false, [2], [(1, ⟨5⟩)]⟩ 1 9 6
    rfl

/-! ## Tendermint HTTP client (src/tendermint/client.rs) -/

/-- Modelled from the spec: `ABCICall` (src/plugins/abci.rs, not under
src/) wraps an inner call for broadcast either as a DeliverTx or as a
CheckTx; `HttpClient::call` accepts only the DeliverTx wrapping. -/
inductive ABCICall (T : Type) where
  | deliverTxCall (call : T)
  | checkTxCall (call : T)
deriving DecidableEq, Repr

/-- The fields of a `broadcast_tx_commit` RPC response the client reads:
the CheckTx result code with its log, and the DeliverTx result code (which
the client never reads). Code 0 is success, any other value is
`Code::Err`. -/
structure BroadcastTxResponse where
  checkTxCode : Nat
  checkTxLog : String
  deliverTxCode : Nat
deriving DecidableEq, Repr

/-- Rust `HttpClient::call` (src/tendermint/client.rs lines 27-42): reject
any call that is not DeliverTx-wrapped with a Client error; otherwise
encode the inner call, broadcast it (the RPC modelled as a function from
the encoded bytes to the response), and fail with a Call error exactly when
the response's CheckTx code is non-zero — the DeliverTx result code is
never consulted. -/
def HttpClient.callApp {T : Type} (broadcast : Bytes → BroadcastTxResponse)
    (enc : T → Bytes) : ABCICall T → Except OrgaError Unit
  | .deliverTxCall c =>
    let res := broadcast (enc c)
    if res.checkTxCode ≠ 0 then
      .error (.CallErr
        ("code " ++ toString res.checkTxCode ++ ": " ++ res.checkTxLog))
    else .ok ()
  | .checkTxCall _ => .error (.ClientErr "Unexpected call type")

/-- The fields of an `abci_query` RPC response the client reads. -/
structure AbciQueryResponse where
  code : Nat
  log : String
  value : Bytes
deriving DecidableEq, Repr

/-- Rust slice expression `v[a..b]`: defined when the range lies within the
vector, a panic (modelled as `none`) otherwise. -/
def rustSlice (v : Bytes) (a b : Nat) : Option Bytes :=
  if a ≤ b ∧ b ≤ v.length then some ((v.drop a).take (b - a)) else none

/-- Rust `HttpClient::query` (src/tendermint/client.rs lines 44-74): issue
the ABCI query (RPC modelled as a function from the encoded query to the
response); on a non-zero response code return a Query error; otherwise
slice the first 32 bytes of the value as the root hash — `res.value[0..32]`
panics (modelled as `none`) when the value is shorter — and verify the
remaining proof bytes against it (`merk::proofs::query::verify` and the
resulting proof-store wrap modelled by the `verify` parameter; the
`try_into` of the 32-byte slice into a fixed array cannot fail). -/
def HttpClient.queryApp {Q M : Type} (abciQuery : Bytes → AbciQueryResponse)
    (verify : Bytes → Bytes → Except OrgaError M) (enc : Q → Bytes)
    (query : Q) : Option (Except OrgaError M) :=
  let res := abciQuery (enc query)
  if res.code ≠ 0 then
    some (.error (.QueryErr ("code " ++ toString res.code ++ ": " ++ res.log)))
  else
    match rustSlice res.value 0 32 with
    | none => none
    | some rootHash => some (verify (res.value.drop 32) rootHash)

/-! ## Theorems: claims C9, C10 -/

/-- C9: `HttpClient::call` succeeds whenever the broadcast response's
CheckTx code is 0, whatever the DeliverTx result code in that response, and
rejects any non-DeliverTx call value with the Client error. -/
theorem http_call_checktx_only {T : Type}
    (broadcast : Bytes → BroadcastTxResponse) (enc : T → Bytes) :
    (∀ c : T, (broadcast (enc c)).checkTxCode = 0 →
      HttpClient.callApp broadcast enc (.deliverTxCall c) = .ok ()) ∧
    (∀ c : T, HttpClient.callApp broadcast enc (.checkTxCall c) =
      .error (.ClientErr "Unexpected call type")) := by
  constructor
  · intro c hok
    simp only [HttpClient.callApp, hok]
    rfl
  · intro c
    rfl

/-- Witness for C9: a broadcast whose CheckTx code is 0 but whose DeliverTx
code is 77 still yields Ok; a CheckTx-wrapped call is rejected. -/
theorem http_call_checktx_only_witness :
    (HttpClient.callApp (fun _ => ⟨0, "", 77⟩) (fun b : Bytes => b)
        (.deliverTxCall [1]) = .ok ()) ∧
    (HttpClient.callApp (fun _ => ⟨0, "", 77⟩) (fun b : Bytes => b)
        (.checkTxCall [1]) = .error (.ClientErr "Unexpected call type")) :=
  ⟨(http_call_checktx_only (fun _ => ⟨0, "", 77⟩) (fun b : Bytes => b)).1
      [1] rfl,
    (http_call_checktx_only (fun _ => ⟨0, "", 77⟩) (fun b : Bytes => b)).2
      [1]⟩

/-- C10: `HttpClient::query` is total only when a successful ABCI query
response carries at least 32 bytes of value: with a response code of 0, a
value shorter than 32 bytes makes the root-hash slice panic (no result at
all, rather than an `Err`), while a value of at least 32 bytes always
produces a result. -/
theorem http_query_root_slice_panics {Q M : Type}
    (abciQuery : Bytes → AbciQueryResponse)
    (verify : Bytes → Bytes → Except OrgaError M) (enc : Q → Bytes) (q : Q)
    (hok : (abciQuery (enc q)).code = 0) :
    ((abciQuery (enc q)).value.length < 32 →
      HttpClient.queryApp abciQuery verify enc q = none) ∧
    (32 ≤ (abciQuery (enc q)).value.length →
      ∃ r, HttpClient.queryApp abciQuery verify enc q = some r) := by
  constructor
  · intro hshort
    simp only [HttpClient.queryApp, hok, ne_eq, not_true_eq_false,
      if_false, rustSlice]
    rw [if_neg (by omega)]
  · intro hlong
    refine ⟨verify ((abciQuery (enc q)).value.drop 32)
      (((abciQuery (enc q)).value.drop 0).take 32), ?_⟩
    simp only [HttpClient.queryApp, hok, ne_eq, not_true_eq_false,
      if_false, rustSlice]
    rw [if_pos (by omega)]

/-- Witness for C10: a successful 3-byte response value panics; a 32-byte
value yields a result. -/
theorem http_query_root_slice_panics_witness :
    (HttpClient.queryApp (M := Unit) (fun _ => ⟨0, "", [1, 2, 3]⟩)
        (fun _ _ => .ok ()) (fun b : Bytes => b) [9] = none) ∧
    ∃ r, HttpClient.queryApp (M := Unit)
        (fun _ => ⟨0, "", List.replicate 32 (0 : Nat)⟩)
        (fun _ _ => .ok ()) (fun b : Bytes => b) [9] = some r :=
  ⟨(http_query_root_slice_panics (fun _ => ⟨0, "", [1, 2, 3]⟩)
      (fun _ _ => .ok ()) (fun b : Bytes => b) [9] rfl).1 (by decide),
    (http_query_root_slice_panics (fun _ => ⟨0, "", List.replicate 32 (0 : Nat)⟩)
      (fun _ _ => .ok ()) (fun b : Bytes => b) [9] rfl).2 (by decide)⟩
